import Mathlib

/-!
Verification of the artha-web client's data-fetching core against its
natural-language specification.

The development shallowly embeds the TypeScript source:
- `src/lib/query-keys.ts` (the `queryKeys` factory),
- `src/lib/api.ts` (the HTTP client wrapper `handleResponse`, `api.get`/`post`/`put`/`delete`),
- `src/lib/query-client.ts` (retry policies),
- `src/lib/currency.ts` (`formatCurrency`, `dollarsToCents`, `parseCurrencyInput`),
- `src/modules/transactions/hooks/use-transactions.ts` (`useCreateTransaction` invalidations),
- `src/modules/auth/hooks/use-auth.ts` (`useSignOut`),
- `src/modules/dashboard/hooks/use-dashboard.ts` (`useDashboardSummary` request construction).

JavaScript strings are modelled as Lean `String`, JavaScript numbers that the
code uses as integers as `Int`/`Nat`, and the exact value of decimal arithmetic
as `ℚ` (the client only manipulates integer cent amounts and two-digit decimal
strings, for which JS number arithmetic coincides with exact arithmetic).
Where the full JS number line matters — `parseFloat` can overflow to
`Infinity` on huge inputs — the `JsNumber` model below adds `NaN` and
`±Infinity` with the IEEE-754 double overflow bound, so the parser's
non-finite results are represented rather than collapsed.
-/

/-- Model of JavaScript's `String.prototype.isPrefixOf`-style check used below:
Boolean test that `pat` occurs as a contiguous subsequence of `l`. -/
def listHasInfix (pat : List Char) : List Char → Bool
  | [] => pat.isEmpty
  | c :: rest => pat.isPrefixOf (c :: rest) || listHasInfix pat rest

/-- Model of JavaScript's `String.prototype.includes`: substring containment. -/
def strIncludes (s pat : String) : Bool :=
  listHasInfix pat.data s.data

/-- A JavaScript value that can appear in a flat filter/params record
(`TransactionFilter` fields are strings and numbers, possibly `undefined`). -/
inductive FilterVal
  | str (s : String)
  | num (n : Int)
  | bool (b : Bool)
  | null
  | undef
deriving DecidableEq

/-- One escaped character of a JSON string literal (JSON.stringify escapes
the quote and backslash; the client's filter strings contain no control
characters). -/
def jsonEscapeChar (c : Char) : String :=
  if c = '"' then "\\\"" else if c = '\\' then "\\\\" else String.mk [c]

/-- A JSON string literal as produced by `JSON.stringify`. -/
def jsonQuote (s : String) : String :=
  "\"" ++ String.join (s.data.map jsonEscapeChar) ++ "\""

/-- `JSON.stringify` of a single property value; `none` models a property
whose value is `undefined`, which `JSON.stringify` drops from the output. -/
def jsonStringifyVal : FilterVal → Option String
  | .str s => some (jsonQuote s)
  | .num n => some (toString n)
  | .bool b => some (if b then "true" else "false")
  | .null => some "null"
  | .undef => none

/-- `JSON.stringify` of a plain object, represented as its insertion-ordered
property list (JavaScript objects with string keys enumerate properties in
insertion order, and `JSON.stringify` serializes them in that order). -/
def jsonStringify (fields : List (String × FilterVal)) : String :=
  "\x7b" ++
    String.intercalate ","
      (fields.filterMap fun kv =>
        (jsonStringifyVal kv.2).map fun v => jsonQuote kv.1 ++ ":" ++ v) ++
  "\x7d"

/-- `queryKeys.auth.session` from `src/lib/query-keys.ts`. -/
def queryKeys.auth.session : List String := ["auth", "session"]

/-- `queryKeys.transactions.all` from `src/lib/query-keys.ts`. -/
def queryKeys.transactions.all : List String := ["transactions"]

/-- `queryKeys.transactions.list`: `[...all, "list", JSON.stringify(filters)]`. -/
def queryKeys.transactions.list (filters : List (String × FilterVal)) : List String :=
  queryKeys.transactions.all ++ ["list", jsonStringify filters]

/-- `queryKeys.transactions.detail`: `[...all, "detail", id]`. -/
def queryKeys.transactions.detail (id : String) : List String :=
  queryKeys.transactions.all ++ ["detail", id]

/-- The JavaScript conditional `month ? String(month) : "all"` where `month`
is a number or `undefined`: `undefined` and `0` are falsy. -/
def jsOptNumToLabel : Option Int → String
  | some m => if m ≠ 0 then toString m else "all"
  | none => "all"

/-- `queryKeys.dashboard.summary` from `src/lib/query-keys.ts`. -/
def queryKeys.dashboard.summary (year : Int) (month : Option Int) : List String :=
  ["dashboard", "summary", toString year, jsOptNumToLabel month]

/-- `queryKeys.dashboard.byCategory` from `src/lib/query-keys.ts`. -/
def queryKeys.dashboard.byCategory (year : Int) (month : Option Int) : List String :=
  ["dashboard", "byCategory", toString year, jsOptNumToLabel month]

/-- `queryKeys.categories.all` from `src/lib/query-keys.ts`. -/
def queryKeys.categories.all : List String := ["categories"]

/-- `queryKeys.categories.list`: `[...all, "list"]`. -/
def queryKeys.categories.list : List String :=
  queryKeys.categories.all ++ ["list"]

/-- The filter object `\x7ba: 1, b: 2\x7d` (insertion order a, b). -/
def filtersAB : List (String × FilterVal) := [("a", FilterVal.num 1), ("b", FilterVal.num 2)]

/-- The filter object `\x7bb: 2, a: 1\x7d` (same pairs, insertion order b, a). -/
def filtersBA : List (String × FilterVal) := [("b", FilterVal.num 2), ("a", FilterVal.num 1)]

/-- C1 (counterexample): two filter objects with identical key/value pairs but
different property insertion order produce different cache keys, because
`queryKeys.transactions.list` serializes the object with `JSON.stringify`,
which follows insertion order. -/
theorem C1_list_key_order_sensitive_cex :
    filtersAB.Perm filtersBA ∧
      queryKeys.transactions.list filtersAB ≠ queryKeys.transactions.list filtersBA :=
  ⟨List.Perm.swap ("b", FilterVal.num 2) ("a", FilterVal.num 1) [], by decide⟩

/-- C1 (amended): the cache key produced by `queryKeys.transactions.list` is
determined exactly by the `JSON.stringify` serialization of the filter object's
insertion-ordered property list: two filter objects receive an identical cache
key if and only if their serializations coincide (in particular, identical
pairs in identical insertion order give identical keys, while reordering the
pairs can change the key). -/
theorem C1_list_key_determined_by_stringify :
    ∀ f g : List (String × FilterVal),
      queryKeys.transactions.list f = queryKeys.transactions.list g ↔
        jsonStringify f = jsonStringify g := by
  intro f g
  simp [queryKeys.transactions.list, queryKeys.transactions.all]

/-- C2: each resource-level key is a strict prefix of every key derived from
it (`transactions.all` of `transactions.list f` and `transactions.detail id`,
`categories.all` of `categories.list`), and keys of distinct resources (auth,
transactions, dashboard, categories) differ in their first element, so they
never share a nonempty common prefix. -/
theorem C2_resource_keys_hierarchical :
    ∀ (f : List (String × FilterVal)) (id : String) (y : Int) (m : Option Int),
      (∃ t, queryKeys.transactions.list f = queryKeys.transactions.all ++ t ∧ t ≠ []) ∧
      (∃ t, queryKeys.transactions.detail id = queryKeys.transactions.all ++ t ∧ t ≠ []) ∧
      (∃ t, queryKeys.categories.list = queryKeys.categories.all ++ t ∧ t ≠ []) ∧
      queryKeys.auth.session.head? = some "auth" ∧
      queryKeys.transactions.all.head? = some "transactions" ∧
      (queryKeys.transactions.list f).head? = some "transactions" ∧
      (queryKeys.transactions.detail id).head? = some "transactions" ∧
      (queryKeys.dashboard.summary y m).head? = some "dashboard" ∧
      (queryKeys.dashboard.byCategory y m).head? = some "dashboard" ∧
      queryKeys.categories.all.head? = some "categories" ∧
      queryKeys.categories.list.head? = some "categories" ∧
      ("auth" : String) ≠ "transactions" ∧ ("auth" : String) ≠ "dashboard" ∧
      ("auth" : String) ≠ "categories" ∧ ("transactions" : String) ≠ "dashboard" ∧
      ("transactions" : String) ≠ "categories" ∧ ("dashboard" : String) ≠ "categories" := by
  intro f id y m
  refine ⟨⟨["list", jsonStringify f], rfl, by simp⟩,
    ⟨["detail", id], rfl, by simp⟩,
    ⟨["list"], rfl, by simp⟩, rfl, rfl, rfl, rfl, rfl, rfl, rfl, rfl, ?_⟩
  refine ⟨by decide, by decide, by decide, by decide, by decide, by decide⟩

/-- A parsed JSON value, as produced by `response.json()`. -/
inductive Json
  | null
  | bool (b : Bool)
  | num (n : Int)
  | str (s : String)
  | arr (elems : List Json)
  | obj (fields : List (String × Json))

/-- JavaScript property access `j[k]` on a parsed JSON value: `none` models
`undefined` (access on a non-object, or an absent property). The client's
envelopes have distinct property names, so first-match lookup is exact. -/
def Json.getField : Json → String → Option Json
  | .obj fields, k => fields.lookup k
  | _, _ => none

/-- JavaScript truthiness of a parsed JSON value. -/
def Json.truthy : Json → Bool
  | .null => false
  | .bool b => b
  | .num n => n != 0
  | .str s => !s.isEmpty
  | .arr _ => true
  | .obj _ => true

/-- Truthiness of a possibly-`undefined` value (`undefined` is falsy). -/
def truthyOpt : Option Json → Bool
  | none => false
  | some j => j.truthy

/-- The strict comparison `v === false` on a possibly-`undefined` value. -/
def isFalseVal : Option Json → Bool
  | some (Json.bool false) => true
  | _ => false

/-- `data?.k` where `data` may be `null` (modelled as `none`). -/
def optField (data : Option Json) (k : String) : Option Json :=
  data.bind (fun d => d.getField k)

/-- `data.error.k`: the field `k` of the envelope's `error` value
(`none` when absent or when `error` is not an object). -/
def errField (data : Option Json) (k : String) : Option Json :=
  optField (optField data "error") k

/-- The guard `data?.success === false && data?.error` from `handleResponse`
in `src/lib/api.ts`. -/
def envelopeCheck (data : Option Json) : Bool :=
  isFalseVal (optField data "success") && truthyOpt (optField data "error")

/-- An HTTP `Response` as observed by `handleResponse`: its `ok` flag,
numeric status, `Content-Type` header (`none` when absent), and the outcome
of `response.json()` (`none` models a body that fails to parse, i.e. a
rejected `json()` promise). -/
structure ResponseModel where
  ok : Bool
  status : Nat
  contentType : Option String
  jsonBody : Option Json

/-- `contentType?.includes("application/json")` from `handleResponse`. -/
def responseIsJson (r : ResponseModel) : Bool :=
  match r.contentType with
  | some ct => strIncludes ct "application/json"
  | none => false

/-- The error raised by the HTTP client: the typed `ApiError` (whose code,
message and details are whatever `data.error.code` / `.message` / `.details`
evaluate to, possibly `undefined`), the generic `Error("API error: <status>")`,
or the propagated rejection of `response.json()` on an unparsable body. -/
inductive HandleError
  | apiError (status : Nat) (code : Option Json) (message : Option Json)
      (details : Option Json)
  | genericError (message : String)
  | jsonParseError

/-- The tail of `handleResponse` once `data` is known: return `data` on `ok`,
otherwise throw `ApiError` when the envelope guard passes, else the generic
error embedding the status. -/
def handleResponseData (r : ResponseModel) (data : Option Json) :
    Except HandleError (Option Json) :=
  if r.ok then .ok data
  else if envelopeCheck data then
    .error (.apiError r.status (errField data "code") (errField data "message")
      (errField data "details"))
  else .error (.genericError ("API error: " ++ toString r.status))

/-- `handleResponse` from `src/lib/api.ts`: `data` is the parsed body when the
content type includes `application/json` (a failed parse rejects the whole
call), and `null` otherwise. -/
def handleResponse (r : ResponseModel) : Except HandleError (Option Json) :=
  if responseIsJson r then
    match r.jsonBody with
    | none => .error .jsonParseError
    | some d => handleResponseData r (some d)
  else handleResponseData r none

/-- A JavaScript value appearing in an `api.get` params record. -/
inductive JsVal
  | str (s : String)
  | num (n : Int)
  | bool (b : Bool)
  | null
  | undef
  | obj (fields : List (String × FilterVal))
deriving DecidableEq

/-- The test `value !== undefined && value !== null` (negated) from `api.get`. -/
def JsVal.isNullish : JsVal → Bool
  | .null => true
  | .undef => true
  | _ => false

/-- JavaScript's `String(value)` coercion on a params value (a plain object
stringifies to "[object Object]"). -/
def JsVal.jsToString : JsVal → String
  | .str s => s
  | .num n => toString n
  | .bool b => if b then "true" else "false"
  | .null => "null"
  | .undef => "undefined"
  | .obj _ => "[object Object]"

/-- The query-string pairs appended by `api.get`: every entry of the params
record in order, skipping `undefined` and `null` values. -/
def buildQuery (params : List (String × JsVal)) : List (String × String) :=
  params.filterMap fun kv =>
    if kv.2.isNullish then none else some (kv.1, kv.2.jsToString)

/-- `api.get`: the serialized query pairs for the optional params record,
and the result of `handleResponse` on the response. -/
def api.get (params : Option (List (String × JsVal))) (r : ResponseModel) :
    List (String × String) × Except HandleError (Option Json) :=
  ((match params with
    | some ps => buildQuery ps
    | none => []), handleResponse r)

/-- `api.post` resolves with `handleResponse(response)`. -/
def api.post (r : ResponseModel) : Except HandleError (Option Json) :=
  handleResponse r

/-- `api.put` resolves with `handleResponse(response)`. -/
def api.put (r : ResponseModel) : Except HandleError (Option Json) :=
  handleResponse r

/-- `api.delete` resolves with `handleResponse(response)`. -/
def api.delete (r : ResponseModel) : Except HandleError (Option Json) :=
  handleResponse r

/-- The argument that `useDashboardSummary` in
`src/modules/dashboard/hooks/use-dashboard.ts` passes to `api.get`: it builds
`params = \x7byear\x7d` (plus `month` when defined) but then wraps it as
`\x7bparams\x7d`, so the record handed to `api.get` has the single property
`params` holding the object. -/
def useDashboardSummary.requestArgs (year : Int) (month : Option Int) :
    String × List (String × JsVal) :=
  let params : List (String × FilterVal) :=
    [("year", FilterVal.num year)] ++
      (match month with
        | some m => [("month", FilterVal.num m)]
        | none => [])
  ("/dashboard/summary", [("params", JsVal.obj params)])

/-- The argument that `useDashboardByCategory` passes to `api.get`
(same `\x7bparams\x7d` wrapping as `useDashboardSummary`). -/
def useDashboardByCategory.requestArgs (year : Int) (month : Option Int) :
    String × List (String × JsVal) :=
  let params : List (String × FilterVal) :=
    [("year", FilterVal.num year)] ++
      (match month with
        | some m => [("month", FilterVal.num m)]
        | none => [])
  ("/dashboard/by-category", [("params", JsVal.obj params)])

/-- C7: at year 2024, month 5, the dashboard hooks hand `api.get` the record
`\x7bparams: \x7byear, month\x7d\x7d`, so the issued query string is
`params=[object Object]` — not the `year`/`month` parameters the claim
requires; passing the params record directly (as `api.get`'s own contract
and test do) would have produced them, omitting `undefined` values. -/
theorem C7_dashboard_query_params_bug :
    buildQuery (useDashboardSummary.requestArgs 2024 (some 5)).2 =
        [("params", "[object Object]")] ∧
      buildQuery (useDashboardByCategory.requestArgs 2024 (some 5)).2 =
        [("params", "[object Object]")] ∧
      buildQuery [("year", JsVal.num 2024), ("month", JsVal.num 5)] =
        [("year", "2024"), ("month", "5")] ∧
      buildQuery [("year", JsVal.num 2024), ("month", JsVal.undef)] =
        [("year", "2024")] ∧
      [("params", ("[object Object]" : String))] ≠
        [("year", "2024"), ("month", "5")] := by
  refine ⟨rfl, rfl, rfl, rfl, by decide⟩

theorem isPrefixOf_self (l : List Char) : l.isPrefixOf l = true := by
  induction l with
  | nil => rfl
  | cons c rest ih => simp [List.isPrefixOf, ih]

theorem listHasInfix_append (a b : List Char) : listHasInfix b (a ++ b) = true := by
  induction a with
  | nil =>
    cases b with
    | nil => rfl
    | cons c rest => simp [listHasInfix, isPrefixOf_self]
  | cons x a ih => simp [listHasInfix, ih]

theorem strIncludes_append_right (a b : String) : strIncludes (a ++ b) b = true := by
  simp [strIncludes, String.data_append, listHasInfix_append]

/-- Discriminator: the client raised the generic `Error("API error: ...")`. -/
def isGenericHandleError : Except HandleError (Option Json) → Bool
  | .error (.genericError _) => true
  | _ => false

/-- Discriminator: the client raised the typed `ApiError`. -/
def isApiHandleError : Except HandleError (Option Json) → Bool
  | .error (.apiError _ _ _ _) => true
  | _ => false

/-- A status-500 response whose `Content-Type` says JSON but whose body does
not parse (`response.json()` rejects). -/
def respMalformed500 : ResponseModel :=
  ⟨false, 500, some "application/json", none⟩

/-- C3 (counterexample): on a non-success status-500 response whose content
type includes `application/json` but whose body fails to parse, the client
raises the propagated `response.json()` rejection — neither the typed
`ApiError` nor a generic error whose message embeds the status 500, contrary
to the claim's "otherwise" branch. -/
theorem C3_unparsable_body_cex :
    handleResponse respMalformed500 = Except.error HandleError.jsonParseError ∧
      isGenericHandleError (handleResponse respMalformed500) = false ∧
      isApiHandleError (handleResponse respMalformed500) = false :=
  ⟨rfl, rfl, rfl⟩

/-- C3 (amended): on a non-success response, if the content type includes
`application/json` and the body parses to a value passing the envelope guard
(`success === false` and a truthy `error`), the client raises `ApiError`
exposing the response status and the `error` value's `code`, `message` and
`details` fields — for the structured envelope these are exactly the
envelope's fields; if the content type is not JSON, or the body parses but
fails the guard, it raises the generic error whose message `"API error: "`
followed by the status embeds the raw status code; only when the content type
is JSON and the body fails to parse does the parse rejection propagate
instead. -/
theorem C3_error_handling (r : ResponseModel) (hok : r.ok = false) :
    (∀ d : Json, responseIsJson r = true → r.jsonBody = some d →
      envelopeCheck (some d) = true →
      handleResponse r =
        Except.error (HandleError.apiError r.status (errField (some d) "code")
          (errField (some d) "message") (errField (some d) "details"))) ∧
    (responseIsJson r = false →
      handleResponse r =
        Except.error (HandleError.genericError ("API error: " ++ toString r.status))) ∧
    (∀ d : Json, responseIsJson r = true → r.jsonBody = some d →
      envelopeCheck (some d) = false →
      handleResponse r =
        Except.error (HandleError.genericError ("API error: " ++ toString r.status))) ∧
    strIncludes ("API error: " ++ toString r.status) (toString r.status) = true := by
  refine ⟨?_, ?_, ?_, strIncludes_append_right _ _⟩
  · intro d hjson hbody henv
    simp [handleResponse, hjson, hbody, handleResponseData, hok, henv]
  · intro hjson
    simp [handleResponse, hjson, handleResponseData, hok, envelopeCheck, optField,
      isFalseVal]
  · intro d hjson hbody henv
    simp [handleResponse, hjson, hbody, handleResponseData, hok, henv]

/-- The `details` array of the spec's example envelope. -/
def errDetailsEx : Json :=
  Json.arr [Json.obj [("code", Json.str "required"),
    ("message", Json.str "Field is required")]]

/-- The spec's example envelope
`\x7bsuccess:false, error:\x7bcode:"VALIDATION_ERROR", message:"Invalid input", details:[...]\x7d\x7d`. -/
def envelopeEx : Json :=
  Json.obj [("success", Json.bool false),
    ("error", Json.obj [("code", Json.str "VALIDATION_ERROR"),
      ("message", Json.str "Invalid input"), ("details", errDetailsEx)])]

/-- A status-400 JSON response carrying the example envelope. -/
def respEx400 : ResponseModel :=
  ⟨false, 400, some "application/json", some envelopeEx⟩

/-- Witness for C3: the example envelope at status 400 yields an `ApiError`
with status 400, code "VALIDATION_ERROR", message "Invalid input" and the
given details array. -/
theorem C3_error_handling_witness :
    handleResponse respEx400 =
      Except.error (HandleError.apiError 400 (some (Json.str "VALIDATION_ERROR"))
        (some (Json.str "Invalid input")) (some errDetailsEx)) :=
  (C3_error_handling respEx400 rfl).1 envelopeEx rfl rfl rfl

/-- C9: every successful (2xx, `ok`) response whose content type does not
include `application/json` makes all four verb operations resolve with `null`
(`none`), regardless of the response body. -/
theorem C9_non_json_success_resolves_null :
    ∀ (params : Option (List (String × JsVal))) (r : ResponseModel),
      r.ok = true → responseIsJson r = false →
      (api.get params r).2 = Except.ok none ∧
        api.post r = Except.ok none ∧
        api.put r = Except.ok none ∧
        api.delete r = Except.ok none := by
  intro params r hok hjson
  have h : handleResponse r = Except.ok none := by
    simp [handleResponse, hjson, handleResponseData, hok]
  exact ⟨h, h, h, h⟩

/-- A successful HTML response (non-JSON content type) with some body text. -/
def respHtml200 : ResponseModel :=
  ⟨true, 200, some "text/html", some (Json.str "page")⟩

/-- Witness for C9: a 200 response with content type `text/html` resolves to
`null` through every verb. -/
theorem C9_non_json_success_resolves_null_witness :
    (api.get none respHtml200).2 = Except.ok none ∧
      api.post respHtml200 = Except.ok none ∧
      api.put respHtml200 = Except.ok none ∧
      api.delete respHtml200 = Except.ok none :=
  C9_non_json_success_resolves_null none respHtml200 rfl rfl

/-- One entry of the query cache: its key, its cached data, and whether it has
been marked stale. -/
structure CacheEntry where
  key : List String
  data : Json
  stale : Bool

/-- `queryClient.invalidateQueries(\x7bqueryKey\x7d)` for each key in `ks`:
every cached entry whose key extends one of the invalidated keys (prefix
match, the cache library's default) is marked stale; no entry's data is
modified and no entry is added or removed. -/
def invalidateQueries (ks : List (List String)) (cache : List CacheEntry) :
    List CacheEntry :=
  cache.map fun e =>
    if ks.any (fun k => k.isPrefixOf e.key) then { e with stale := true } else e

/-- The settled outcome of one mutation attempt. -/
inductive MutationOutcome (ε α : Type)
  | success (val : α)
  | failure (err : ε)

/-- The keys `useCreateTransaction` invalidates, by outcome: its `onSuccess`
handler invalidates `queryKeys.transactions.all` and `["dashboard"]`; a failed
mutation runs no handler and invalidates nothing. -/
def useCreateTransaction.invalidations {ε α : Type} :
    MutationOutcome ε α → List (List String)
  | .success _ => [queryKeys.transactions.all, ["dashboard"]]
  | .failure _ => []

/-- The `error` field exposed by `useCreateTransaction` after the outcome. -/
def useCreateTransaction.errorField {ε α : Type} : MutationOutcome ε α → Option ε
  | .success _ => none
  | .failure e => some e

/-- C4: a successful create-transaction invalidates exactly
`queryKeys.transactions.all` and the `["dashboard"]` aggregate key — the
resulting cache marks stale precisely the entries whose keys extend one of
those two, touching no entry's data — while a failed create invalidates
nothing, leaves the cache exactly as it was, and surfaces the error through
the hook's error field. -/
theorem C4_create_transaction_invalidation :
    ∀ (t : Json) (err : String) (cache : List CacheEntry),
      useCreateTransaction.invalidations
          (MutationOutcome.success t : MutationOutcome String Json) =
        [queryKeys.transactions.all, ["dashboard"]] ∧
      invalidateQueries
          (useCreateTransaction.invalidations
            (MutationOutcome.success t : MutationOutcome String Json)) cache =
        cache.map (fun e =>
          if queryKeys.transactions.all.isPrefixOf e.key ||
              ["dashboard"].isPrefixOf e.key
          then { e with stale := true } else e) ∧
      (invalidateQueries
          (useCreateTransaction.invalidations
            (MutationOutcome.success t : MutationOutcome String Json)) cache).map
          CacheEntry.data = cache.map CacheEntry.data ∧
      useCreateTransaction.invalidations
          (MutationOutcome.failure err : MutationOutcome String Json) = [] ∧
      invalidateQueries
          (useCreateTransaction.invalidations
            (MutationOutcome.failure err : MutationOutcome String Json)) cache =
        cache ∧
      useCreateTransaction.errorField
          (MutationOutcome.failure err : MutationOutcome String Json) = some err ∧
      useCreateTransaction.errorField
          (MutationOutcome.success t : MutationOutcome String Json) = none := by
  intro t err cache
  refine ⟨rfl, ?_, ?_, rfl, ?_, rfl, rfl⟩
  · simp [invalidateQueries, useCreateTransaction.invalidations]
  · simp only [invalidateQueries, useCreateTransaction.invalidations, List.map_map]
    apply List.map_congr_left
    intro e _
    simp only [Function.comp]
    split <;> rfl
  · simp [invalidateQueries, useCreateTransaction.invalidations]

/-- The mutation retry predicate from `src/lib/query-client.ts`: retry while
the error message contains "Network" and fewer than 2 attempts have failed;
never otherwise. -/
def mutations.retry (failureCount : Nat) (errorMessage : String) : Bool :=
  if strIncludes errorMessage "Network" then decide (failureCount < 2) else false

/-- C5 (counterexample): a first mutation failure whose error message contains
"Network" IS retried (the configured mutation retry predicate returns true),
refuting "a failed mutation request is never retried automatically". -/
theorem C5_mutation_retried_on_network_error_cex :
    mutations.retry 0 "Network error" = true := by rfl

/-- C5 (amended): a failed mutation is retried exactly when the error message
contains "Network" and fewer than two attempts have already failed (so at most
two automatic retries after the first attempt); any other failure is never
retried. -/
theorem C5_mutation_retry_policy :
    ∀ (n : Nat) (msg : String),
      mutations.retry n msg = true ↔ strIncludes msg "Network" = true ∧ n < 2 := by
  intro n msg
  cases hb : strIncludes msg "Network" <;> simp [mutations.retry, hb]

/-- The client-side application state that `useSignOut` affects: the query
cache and the window location. -/
structure AppState where
  cache : List CacheEntry
  location : String

/-- The effect of a settled sign-out mutation from
`src/modules/auth/hooks/use-auth.ts`: `onSuccess` runs `queryClient.clear()`
and assigns `window.location.href = "/login"`; a failed sign-out has no
handler and changes nothing. -/
def useSignOut.settle : MutationOutcome String Unit → AppState → AppState
  | .success _, _ => { cache := [], location := "/login" }
  | .failure _, st => st

/-- C8: a sign-out whose request succeeds clears the entire query cache and
performs the hard navigation to "/login", and this happens only on success —
a failed sign-out leaves the cache and location exactly as they were. -/
theorem C8_sign_out_clears_and_navigates :
    ∀ (st : AppState) (err : String),
      useSignOut.settle (MutationOutcome.success ()) st =
        { cache := [], location := "/login" } ∧
      useSignOut.settle (MutationOutcome.failure err) st = st := by
  intro st err
  exact ⟨rfl, rfl⟩

/-- The numeric value of a digit character. -/
def digitVal (c : Char) : Nat := c.toNat - 48

/-- The number denoted by a list of digit characters, most significant first. -/
def digitsVal (l : List Char) : Nat :=
  l.foldl (fun a c => 10 * a + digitVal c) 0

/-- The character class kept by `input.replace(/[^0-9.-]/g, "")` in
`parseCurrencyInput`. -/
def cleanKeep (c : Char) : Bool := c.isDigit || c == '.' || c == '-'

/-- The cleaning step of `parseCurrencyInput`: strip every character other
than digits, the decimal point, and the minus sign. -/
def cleanCurrency (s : String) : String := ⟨s.data.filter cleanKeep⟩

/-- The optional leading sign consumed by `parseFloat`. -/
def splitSign (cs : List Char) : Bool × List Char :=
  match cs with
  | [] => (false, [])
  | c :: rest =>
    if c = '-' then (true, rest)
    else if c = '+' then (false, rest)
    else (false, c :: rest)

/-- The fractional digit run of `parseFloat`: digits after a leading decimal
point, empty otherwise. -/
def fracPart (r1 : List Char) : List Char :=
  if r1.head? = some '.' then r1.tail.takeWhile Char.isDigit else []

/-- The exact decimal value consumed by JavaScript's `parseFloat` on a string
over the post-cleaning alphabet (digits, `.`, `-`): an optional sign, a digit
run, and an optional point followed by a digit run; `none` models `NaN` (no
digit consumed). This is the mathematical value of the parsed text; the
rounding of that value into the 64-bit double line — in particular overflow to
`Infinity` at the IEEE bound — is applied on top of it by `parseFloatJs`
below. Sub-overflow nearest-double rounding is not modelled; no theorem in
this file depends on it (the currency theorems evaluate the parser only on
in-range two-decimal strings, where the double value is exact to the cent). -/
def parseFloatCore (cs : List Char) : Option ℚ :=
  if ((splitSign cs).2.takeWhile Char.isDigit).isEmpty &&
      (fracPart ((splitSign cs).2.dropWhile Char.isDigit)).isEmpty then none
  else
    some ((if (splitSign cs).1 then (-1 : ℚ) else 1) *
      ((digitsVal ((splitSign cs).2.takeWhile Char.isDigit) : ℚ) +
        (digitsVal (fracPart ((splitSign cs).2.dropWhile Char.isDigit)) : ℚ) /
          (10 : ℚ) ^ (fracPart ((splitSign cs).2.dropWhile Char.isDigit)).length))

/-- `parseFloat` on a cleaned currency string. -/
def parseFloatQ (s : String) : Option ℚ := parseFloatCore s.data

/-- `dollarsToCents` from `src/lib/currency.ts`: `Math.round(dollars * 100)`
(`Math.round` rounds half toward positive infinity, as does `round`). -/
def dollarsToCents (dollars : ℚ) : ℤ := round (dollars * 100)

/-- `parseCurrencyInput` from `src/lib/currency.ts`: clean, `parseFloat`,
return 0 on `NaN`, otherwise convert dollars to cents — restricted to inputs
whose parsed value stays within the finite double range, where the JS result
is exact. The unrestricted model, including `parseFloat` overflow to
`Infinity`, is `parseCurrencyInputJs` below; `parseCurrencyInputJs_agrees`
shows the two coincide on the in-range domain. -/
def parseCurrencyInput (s : String) : ℤ :=
  match parseFloatQ (cleanCurrency s) with
  | none => 0
  | some q => dollarsToCents q

theorem takeWhile_append_of_all (p : Char → Bool) :
    ∀ (D T : List Char), (∀ c ∈ D, p c = true) →
      (D ++ T).takeWhile p = D ++ T.takeWhile p ∧
        (D ++ T).dropWhile p = T.dropWhile p := by
  intro D
  induction D with
  | nil => intro T _; exact ⟨rfl, rfl⟩
  | cons d D ih =>
    intro T hall
    have hd : p d = true := hall d (List.mem_cons_self d D)
    obtain ⟨h1, h2⟩ := ih T (fun c hc => hall c (List.mem_cons_of_mem d hc))
    constructor
    · rw [List.cons_append, List.takeWhile_cons, if_pos hd, h1, List.cons_append]
    · rw [List.cons_append, List.dropWhile_cons, if_pos hd, h2]

theorem takeWhile_of_all (p : Char → Bool) (l : List Char)
    (hall : ∀ c ∈ l, p c = true) : l.takeWhile p = l := by
  have := (takeWhile_append_of_all p l [] hall).1
  simpa using this

theorem cleanKeep_of_isDigit (c : Char) (h : c.isDigit = true) :
    cleanKeep c = true := by
  simp [cleanKeep, h]

theorem filter_cleanKeep_digits (l : List Char)
    (hall : ∀ c ∈ l, c.isDigit = true) : l.filter cleanKeep = l :=
  List.filter_eq_self.mpr fun c hc => cleanKeep_of_isDigit c (hall c hc)

theorem splitSign_digit (c : Char) (cs : List Char) (h : c.isDigit = true) :
    splitSign (c :: cs) = (false, c :: cs) := by
  have h1 : c ≠ '-' := by
    intro e
    rw [e] at h
    exact absurd h (by decide)
  have h2 : c ≠ '+' := by
    intro e
    rw [e] at h
    exact absurd h (by decide)
  simp [splitSign, h1, h2]

theorem dropWhile_of_all (p : Char → Bool) (l : List Char)
    (hall : ∀ c ∈ l, p c = true) : l.dropWhile p = [] := by
  have := (takeWhile_append_of_all p l [] hall).2
  simpa using this

theorem parseFloatCore_digits (D : List Char)
    (hDall : ∀ c ∈ D, c.isDigit = true) (hDne : D ≠ []) :
    parseFloatCore D = some ((digitsVal D : ℚ)) := by
  obtain ⟨d₀, D', hD0⟩ : ∃ d₀ D', D = d₀ :: D' := by
    cases D with
    | nil => exact absurd rfl hDne
    | cons a b => exact ⟨a, b, rfl⟩
  have hsplit : splitSign D = (false, D) := by
    rw [hD0]
    exact splitSign_digit d₀ D' (hDall d₀ (hD0 ▸ List.mem_cons_self d₀ D'))
  have htake : D.takeWhile Char.isDigit = D := takeWhile_of_all Char.isDigit D hDall
  have hdrop : D.dropWhile Char.isDigit = [] := dropWhile_of_all Char.isDigit D hDall
  have hne : D.isEmpty = false := by
    rw [hD0]
    rfl
  simp [parseFloatCore, hsplit, htake, hdrop, hne, fracPart, digitsVal]

/-- The magnitude at which IEEE-754 round-to-nearest overflows a 64-bit
double: the largest finite double is `2^1024 - 2^971`, and any exact value of
magnitude at least `2^1024 - 2^970` (the midpoint to the next would-be
double) becomes `±Infinity`. -/
def dblOverflowBound : ℚ := 2 ^ 1024 - 2 ^ 970

/-- A JavaScript number as the currency parser can observe it: `NaN`,
`±Infinity`, or a finite value (carried exactly). -/
inductive JsNumber
  | nan
  | infinity (neg : Bool)
  | finite (q : ℚ)
deriving DecidableEq

/-- `parseFloat` on the post-cleaning alphabet, including the double range:
no digits parse to `NaN`; an exact value whose magnitude reaches
`dblOverflowBound` overflows to `±Infinity`; otherwise the value is finite. -/
def parseFloatJs (cs : List Char) : JsNumber :=
  match parseFloatCore cs with
  | none => .nan
  | some q =>
    if dblOverflowBound ≤ q then .infinity false
    else if q ≤ -dblOverflowBound then .infinity true
    else .finite q

/-- JS multiplication `dollars * 100` on the number line: `NaN` and
`±Infinity` propagate, and a finite product overflows to `±Infinity` at the
double bound. -/
def jsMul100 : JsNumber → JsNumber
  | .nan => .nan
  | .infinity b => .infinity b
  | .finite q =>
    if dblOverflowBound ≤ q * 100 then .infinity false
    else if q * 100 ≤ -dblOverflowBound then .infinity true
    else .finite (q * 100)

/-- `Math.round`: `NaN` and `±Infinity` are returned unchanged; a finite value
rounds half toward positive infinity (Mathlib's `round`). -/
def jsRound : JsNumber → JsNumber
  | .nan => .nan
  | .infinity b => .infinity b
  | .finite q => .finite ((round q : ℤ) : ℚ)

/-- `dollarsToCents` on the full JS number line: `Math.round(dollars * 100)`. -/
def dollarsToCentsJs (dollars : JsNumber) : JsNumber :=
  jsRound (jsMul100 dollars)

/-- `parseCurrencyInput` from `src/lib/currency.ts` on the full JS number
line: clean, `parseFloat`, return 0 on `NaN` (`isNaN(Infinity)` is false, so
`±Infinity` reaches `dollarsToCents`). -/
def parseCurrencyInputJs (s : String) : JsNumber :=
  match parseFloatJs (cleanCurrency s).data with
  | .nan => .finite 0
  | .infinity b => dollarsToCentsJs (.infinity b)
  | .finite q => dollarsToCentsJs (.finite q)

/-- Test for a finite JS number (`Number.isFinite`). -/
def JsNumber.isFinite : JsNumber → Bool
  | .finite _ => true
  | _ => false


theorem parseFloatJs_finite (cs : List Char) (q : ℚ)
    (h : parseFloatCore cs = some q) (h1 : -dblOverflowBound < q)
    (h2 : q < dblOverflowBound) : parseFloatJs cs = JsNumber.finite q := by
  unfold parseFloatJs
  rw [h]
  show (if dblOverflowBound ≤ q then JsNumber.infinity false
    else if q ≤ -dblOverflowBound then JsNumber.infinity true
    else JsNumber.finite q) = JsNumber.finite q
  rw [if_neg (not_le.mpr h2), if_neg (not_le.mpr (by linarith))]

theorem dollarsToCentsJs_finite (q : ℚ) (h3 : -dblOverflowBound < q * 100)
    (h4 : q * 100 < dblOverflowBound) :
    dollarsToCentsJs (JsNumber.finite q) =
      JsNumber.finite ((round (q * 100) : ℤ) : ℚ) := by
  unfold dollarsToCentsJs jsMul100
  show jsRound (if dblOverflowBound ≤ q * 100 then JsNumber.infinity false
    else if q * 100 ≤ -dblOverflowBound then JsNumber.infinity true
    else JsNumber.finite (q * 100)) = JsNumber.finite ((round (q * 100) : ℤ) : ℚ)
  rw [if_neg (not_le.mpr h4), if_neg (not_le.mpr (by linarith))]
  rfl

theorem parseCurrencyInputJs_finite (s : String) (q : ℚ)
    (h : parseFloatCore (cleanCurrency s).data = some q)
    (h1 : -dblOverflowBound < q) (h2 : q < dblOverflowBound)
    (h3 : -dblOverflowBound < q * 100) (h4 : q * 100 < dblOverflowBound) :
    parseCurrencyInputJs s = JsNumber.finite ((round (q * 100) : ℤ) : ℚ) := by
  unfold parseCurrencyInputJs
  rw [parseFloatJs_finite _ q h h1 h2]
  exact dollarsToCentsJs_finite q h3 h4

/-- On inputs whose parsed value (and cent conversion) stays within the finite
double range, the full JS-number model agrees with the exact in-range model
`parseCurrencyInput` used by the round-trip theorems. -/
theorem parseCurrencyInputJs_agrees (s : String) (q : ℚ)
    (h : parseFloatCore (cleanCurrency s).data = some q)
    (h1 : -dblOverflowBound < q) (h2 : q < dblOverflowBound)
    (h3 : -dblOverflowBound < q * 100) (h4 : q * 100 < dblOverflowBound) :
    parseCurrencyInputJs s = JsNumber.finite ((parseCurrencyInput s : ℤ) : ℚ) := by
  have hx : parseCurrencyInput s = round (q * 100) := by
    unfold parseCurrencyInput parseFloatQ
    rw [h]
    rfl
  rw [hx]
  exact parseCurrencyInputJs_finite s q h h1 h2 h3 h4

theorem digitsVal_one_replicate_zero (n : Nat) :
    digitsVal ('1' :: List.replicate n '0') = 10 ^ n := by
  have hgen : ∀ (m a : Nat),
      List.foldl (fun acc c => 10 * acc + digitVal c) a (List.replicate m '0') =
        10 ^ m * a := by
    intro m
    induction m with
    | zero => intro a; simp
    | succ m ih =>
      intro a
      rw [List.replicate_succ, List.foldl_cons, ih]
      have h0 : digitVal '0' = 0 := rfl
      rw [h0]
      ring
  show List.foldl (fun acc c => 10 * acc + digitVal c) 0
      ('1' :: List.replicate n '0') = 10 ^ n
  rw [List.foldl_cons, hgen]
  have h1 : 10 * 0 + digitVal '1' = 1 := rfl
  rw [h1, Nat.mul_one]

set_option maxRecDepth 10000 in
theorem dblOverflowBound_le_pow :
    dblOverflowBound ≤ (10 : ℚ) ^ 309 := by
  have hnat : (2 : ℕ) ^ 1024 ≤ 10 ^ 309 := by decide
  have h2 : ((2 : ℚ)) ^ 1024 ≤ (10 : ℚ) ^ 309 := by
    have hc : (((2 : ℕ) ^ 1024 : ℕ) : ℚ) ≤ (((10 : ℕ) ^ 309 : ℕ) : ℚ) :=
      Nat.cast_le.mpr hnat
    push_cast at hc
    exact hc
  have h3 : (0 : ℚ) ≤ 2 ^ 970 := by positivity
  unfold dblOverflowBound
  linarith

/-- The 310-digit input "1" followed by 309 zeros, whose numeric value 10^309
exceeds the finite double range. -/
def overflowInput : String := ⟨'1' :: List.replicate 309 '0'⟩

/-- C10 (counterexample): on the 310-digit input `overflowInput`, cleaning
keeps every character, `parseFloat` overflows to `Infinity` (10^309 exceeds
the double bound), `isNaN(Infinity)` is false, and
`Math.round(Infinity * 100)` is `Infinity` — so `parseCurrencyInput` returns a
non-finite number, refuting "returns a finite number for every input
string". -/
theorem C10_overflow_to_infinity_cex :
    parseCurrencyInputJs overflowInput = JsNumber.infinity false ∧
      (parseCurrencyInputJs overflowInput).isFinite = false := by
  have hall : ∀ c ∈ ('1' :: List.replicate 309 '0'), c.isDigit = true := by
    intro c hc
    rcases List.mem_cons.mp hc with h | h
    · rw [h]
      rfl
    · rw [List.eq_of_mem_replicate h]
      rfl
  have hcleandata :
      (cleanCurrency overflowInput).data = '1' :: List.replicate 309 '0' := by
    show List.filter cleanKeep ('1' :: List.replicate 309 '0') = _
    exact filter_cleanKeep_digits _ hall
  have hval : ((digitsVal ('1' :: List.replicate 309 '0') : Nat) : ℚ) =
      (10 : ℚ) ^ 309 := by
    rw [digitsVal_one_replicate_zero]
    push_cast
    rfl
  have hcore : parseFloatCore (cleanCurrency overflowInput).data =
      some ((10 : ℚ) ^ 309) := by
    rw [hcleandata, parseFloatCore_digits _ hall (List.cons_ne_nil _ _), hval]
  have hjs : parseFloatJs (cleanCurrency overflowInput).data =
      JsNumber.infinity false := by
    unfold parseFloatJs
    rw [hcore]
    show (if dblOverflowBound ≤ (10 : ℚ) ^ 309 then JsNumber.infinity false
      else if (10 : ℚ) ^ 309 ≤ -dblOverflowBound then JsNumber.infinity true
      else JsNumber.finite ((10 : ℚ) ^ 309)) = JsNumber.infinity false
    rw [if_pos dblOverflowBound_le_pow]
  have h1 : parseCurrencyInputJs overflowInput = JsNumber.infinity false := by
    unfold parseCurrencyInputJs
    rw [hjs]
    rfl
  refine ⟨h1, ?_⟩
  rw [h1]
  rfl

/-- C10 (amended): `parseCurrencyInput` never throws and never yields `NaN`:
it parses only the cleaned string (every character other than digits, decimal
point and minus sign is stripped first); when the cleaned text does not parse
as a number the result is the integer 0; when the parsed value and its cent
conversion stay within the finite double range the result is a finite integer
number of cents; but an input whose cleaned magnitude reaches the double
overflow bound (about 1.8·10^308) yields `Infinity`, not a finite number. -/
theorem C10_parse_currency_no_nan_amended :
    ∀ s : String,
      parseCurrencyInputJs (cleanCurrency s) = parseCurrencyInputJs s ∧
      parseCurrencyInputJs s ≠ JsNumber.nan ∧
      (parseFloatCore (cleanCurrency s).data = none →
        parseCurrencyInputJs s = JsNumber.finite 0) ∧
      (∀ q : ℚ, parseFloatCore (cleanCurrency s).data = some q →
        -dblOverflowBound < q → q < dblOverflowBound →
        -dblOverflowBound < q * 100 → q * 100 < dblOverflowBound →
        parseCurrencyInputJs s = JsNumber.finite ((round (q * 100) : ℤ) : ℚ) ∧
          (parseCurrencyInputJs s).isFinite = true) ∧
      (∀ q : ℚ, parseFloatCore (cleanCurrency s).data = some q →
        dblOverflowBound ≤ q → parseCurrencyInputJs s = JsNumber.infinity false) ∧
      parseCurrencyInputJs "" = JsNumber.finite 0 ∧
      parseCurrencyInputJs "abc" = JsNumber.finite 0 ∧
      parseCurrencyInputJs "$-." = JsNumber.finite 0 := by
  intro s
  refine ⟨?_, ?_, ?_, ?_, ?_, rfl, rfl, rfl⟩
  · have hidem : (cleanCurrency (cleanCurrency s)).data = (cleanCurrency s).data := by
      show List.filter cleanKeep (List.filter cleanKeep s.data) =
        List.filter cleanKeep s.data
      rw [List.filter_filter]
      simp
    unfold parseCurrencyInputJs
    rw [hidem]
  · unfold parseCurrencyInputJs
    cases hv : parseFloatJs (cleanCurrency s).data with
    | nan => simp
    | infinity b => simp [dollarsToCentsJs, jsMul100, jsRound]
    | finite q =>
      simp only [dollarsToCentsJs, jsMul100]
      split
      · simp [jsRound]
      · split <;> simp [jsRound]
  · intro h
    unfold parseCurrencyInputJs parseFloatJs
    rw [h]
  · intro q hq h1 h2 h3 h4
    have hfin := parseCurrencyInputJs_finite s q hq h1 h2 h3 h4
    refine ⟨hfin, ?_⟩
    rw [hfin]
    rfl
  · intro q hq hge
    have hjs : parseFloatJs (cleanCurrency s).data = JsNumber.infinity false := by
      unfold parseFloatJs
      rw [hq]
      show (if dblOverflowBound ≤ q then JsNumber.infinity false
        else if q ≤ -dblOverflowBound then JsNumber.infinity true
        else JsNumber.finite q) = JsNumber.infinity false
      rw [if_pos hge]
    unfold parseCurrencyInputJs
    rw [hjs]
    rfl

/-- Witness for C10: "$" cleans to the empty string, which does not parse as a
number, and the result is the integer 0. -/
theorem C10_parse_currency_no_nan_amended_witness :
    parseFloatCore (cleanCurrency "$").data = none ∧
      parseCurrencyInputJs "$" = JsNumber.finite 0 :=
  ⟨rfl, (C10_parse_currency_no_nan_amended "$").2.2.1 rfl⟩
